import Mathlib

/-!
# Grade Checker reconciliation engine: a shallow embedding

This file embeds the reconciliation core of `app.py` (the Grade Checker
application) in Lean and proves properties of it.

Modelling conventions:
* Python strings are modelled as lists of Unicode code points (`PyStr`),
  so `str.strip`, `str.upper`, `str.lower` and `str.isnumeric` become
  executable functions on `List Nat` (restricted to their ASCII behaviour,
  which covers every literal the program compares against).
* pandas `NaN` cells surface through `astype(str)` as the string `"nan"`;
  missing cells are therefore read with the default `"nan"` (`cellAt`).
* The two `tempfile.NamedTemporaryFile` paths created per paired course are
  OS-supplied fresh names; the embedding threads an explicit `supply` list of
  such names, consumed two per paired course, because the roster temp path
  appears verbatim in the header-not-found error message.
* The outer merge (`pd.merge(..., how='outer', indicator=True)`) is embedded
  as `outerMerge`: every roster row is paired with every downloaded row whose
  key matches (`both`), roster rows without a partner become `leftOnly`,
  downloaded rows without a partner are appended as `rightOnly`.
-/

/-- Python strings, as lists of Unicode code points. -/
abbrev PyStr := List Nat

/-- Embed a Lean string literal as a `PyStr`. -/
def pyS (s : String) : PyStr := s.data.map Char.toNat

/-- Python whitespace recognised by `str.strip()` (ASCII fragment). -/
def isSpaceCode (c : Nat) : Bool :=
  decide (c = 32 ∨ c = 9 ∨ c = 10 ∨ c = 13 ∨ c = 11 ∨ c = 12)

/-- `str.upper` on one code point (ASCII fragment). -/
def upCode (c : Nat) : Nat := if 97 ≤ c ∧ c ≤ 122 then c - 32 else c

/-- `str.lower` on one code point (ASCII fragment). -/
def lowCode (c : Nat) : Nat := if 65 ≤ c ∧ c ≤ 90 then c + 32 else c

/-- `str.isnumeric` character test (ASCII decimal digits). -/
def isDigitCode (c : Nat) : Bool := decide (48 ≤ c ∧ c ≤ 57)

/-- `s.strip()`: drop leading and trailing whitespace. -/
def pstrip (s : PyStr) : PyStr :=
  ((s.dropWhile isSpaceCode).reverse.dropWhile isSpaceCode).reverse

/-- `s.upper()`. -/
def pupper (s : PyStr) : PyStr := s.map upCode

/-- `s.lower()`. -/
def plower (s : PyStr) : PyStr := s.map lowCode

/-- `s.strip().upper()`: the cleaning applied to every grade/flag cell. -/
def pclean (s : PyStr) : PyStr := pupper (pstrip s)

/-- `s.isnumeric()`: nonempty and all decimal digits. -/
def pyIsNumeric (s : PyStr) : Bool := !s.isEmpty && s.all isDigitCode

/-- Decimal rendering of a count, as used in the success message. -/
def pyOfNat (n : Nat) : PyStr := (Nat.toDigits 10 n).map Char.toNat

/-- `astype(str)` image of a missing (`NaN`) cell. -/
def nanS : PyStr := pyS "nan"

/-- `normalize_grade` from `app.py`: strip, uppercase, then collapse the
`P`/`PASS` and `ABSENT`/`ABS` synonym classes. -/
def normalize_grade (grade : PyStr) : PyStr :=
  if pclean grade = pyS "P" ∨ pclean grade = pyS "PASS" then pyS "PASS"
  else if pclean grade = pyS "ABSENT" ∨ pclean grade = pyS "ABS" then
    pyS "ABSENT"
  else pclean grade

/-- The header-row predicate of `read_roster_file`: the uppercased-stripped
cell set contains `"LETTER GRADE"` and meets `{"SID", "STUDENT ID"}`. -/
def headerPred (row : List PyStr) : Bool :=
  let toks := row.map (fun c => pstrip (pupper c))
  toks.any (fun t => decide (t = pyS "LETTER GRADE")) &&
    (toks.any (fun t => decide (t = pyS "SID")) ||
     toks.any (fun t => decide (t = pyS "STUDENT ID")))

/-- Scan the raw grid top-to-bottom for the first row satisfying
`headerPred`; `none` when no row qualifies (mirrors the `iterrows` loop). -/
def findHeaderRow : List (List PyStr) → Option Nat
  | [] => none
  | row :: rest =>
      if headerPred row then some 0 else (findHeaderRow rest).map (· + 1)

/-- A parsed table: a list of column labels and a list of data rows. -/
structure Table where
  cols : List PyStr
  rows : List (List PyStr)
deriving DecidableEq

/-- `read_roster_file`: locate the header row and re-read the sheet with it,
or fail with a `ValueError` naming the file path that was read. -/
def read_roster_file (path : PyStr) (grid : List (List PyStr)) :
    Except PyStr Table :=
  match findHeaderRow grid with
  | some i => .ok { cols := grid.getD i [], rows := grid.drop (i + 1) }
  | none =>
      .error (pyS "Header row with required keywords not found in " ++ path)

/-- The `_merge` indicator of the pandas outer join. -/
inductive Origin
  | leftOnly
  | rightOnly
  | both
deriving DecidableEq

/-- One row of the merged frame: optional roster-side fields (`sid`,
`lg` = `Letter Grade`), optional downloaded-side fields (`id`,
`ag` = `Approved final grade`, `wd` = `Withdrawn`), and the indicator. -/
structure MergedRow where
  sid : Option PyStr
  lg : Option PyStr
  id : Option PyStr
  ag : Option PyStr
  wd : Option PyStr
  origin : Origin
deriving DecidableEq

/-- `pd.merge(roster, downloaded, left_on=sid, right_on='ID', how='outer',
indicator=True)`: matched key pairs (`both`), then unmatched roster rows
(`leftOnly`) in place, then unmatched downloaded rows (`rightOnly`). -/
def outerMerge (rrows : List (PyStr × PyStr))
    (drows : List (PyStr × PyStr × PyStr)) : List MergedRow :=
  (rrows.flatMap (fun r =>
    let ms := drows.filter (fun d => decide (d.1 = r.1))
    if ms.isEmpty then
      [⟨some r.1, some r.2, none, none, none, .leftOnly⟩]
    else
      ms.map (fun d =>
        ⟨some r.1, some r.2, some d.1, some d.2.1, some d.2.2, .both⟩))) ++
  ((drows.filter (fun d => !rrows.any (fun r => decide (r.1 = d.1)))).map
    (fun d => ⟨none, none, some d.1, some d.2.1, some d.2.2, .rightOnly⟩))

/-- `merged['ID_final']`: roster-side identifier if present, otherwise the
downloaded-side one, re-stripped. -/
def idFinal (m : MergedRow) : PyStr := pstrip (m.sid.getD (m.id.getD nanS))

/-- The row-admission filter of line 425: identifier nonempty and not the
literal `nan` in any letter case. -/
def admission (i : PyStr) : Bool := !i.isEmpty && decide (plower i ≠ nanS)

/-- `merged['is_withdrawn']`: approved grade `W` or withdrawn flag
`WITHDRAWN` (both columns were stripped and uppercased before the merge). -/
def isWithdrawnRow (m : MergedRow) : Bool :=
  decide (m.ag = some (pyS "W")) || decide (m.wd = some (pyS "WITHDRAWN"))

/-- `norm_roster_grade` of a merged row (`NaN` reads as `"nan"`). -/
def normR (m : MergedRow) : PyStr := normalize_grade (m.lg.getD nanS)

/-- `norm_downloaded_grade` of a merged row. -/
def normD (m : MergedRow) : PyStr := normalize_grade (m.ag.getD nanS)

/-- `merged['mismatch']`: only rows present on both sides can mismatch;
an `ABSENT` roster grade must pair with `F`, anything else must be equal. -/
def mismatchRow (m : MergedRow) : Bool :=
  decide (m.origin = .both) &&
    ((decide (normR m = pyS "ABSENT") && decide (normD m ≠ pyS "F")) ||
     (decide (normR m ≠ pyS "ABSENT") && decide (normR m ≠ normD m)))

/-- `merged['matched'] = ~merged['mismatch']`. -/
def matchedRow (m : MergedRow) : Bool := !mismatchRow m

/-- One row of the per-course `result` frame. -/
structure OutRow where
  course : PyStr
  id_final : PyStr
  letter_grade : PyStr
  approved_grade : PyStr
  matched : Bool
  is_withdrawn : Bool
deriving DecidableEq

/-- Outcome status of one course. -/
inductive Status
  | success
  | error
deriving DecidableEq

/-- The per-course outcome dictionary appended to `results`. Error outcomes
carry `data = none` and empty `unmatched`/`withdrawn` (the keys are absent
in the source dictionary). -/
structure CourseOutcome where
  course : PyStr
  status : Status
  message : PyStr
  data : Option (List OutRow)
  unmatched : List OutRow
  withdrawn : List PyStr
deriving DecidableEq

/-- An error outcome dictionary. -/
def errOutcome (course msg : PyStr) : CourseOutcome :=
  ⟨course, .error, msg, none, [], []⟩

/-- First position of a column label among the (stripped) labels. -/
def findCol (cols : List PyStr) (name : PyStr) : Option Nat :=
  cols.findIdx? (fun c => decide (c = name))

/-- Read one cell; a missing cell is pandas `NaN`, i.e. `"nan"` after
`astype(str)`. -/
def cellAt (row : List PyStr) (j : Nat) : PyStr := row.getD j nanS

/-- Resolution of the roster identifier column: `SID` first, then
`Student ID`. -/
def sidResolve (roster : Table) : Option PyStr :=
  let rcols := roster.cols.map pstrip
  if rcols.any (fun c => decide (c = pyS "SID")) then some (pyS "SID")
  else if rcols.any (fun c => decide (c = pyS "Student ID")) then
    some (pyS "Student ID")
  else none

/-- `'Letter Grade' in df_roster.columns` after stripping. -/
def rosterLgOk (roster : Table) : Bool :=
  (roster.cols.map pstrip).any (fun c => decide (c = pyS "Letter Grade"))

/-- Both required downloaded columns present after stripping. -/
def dlColsOk (dlT : Table) : Bool :=
  (dlT.cols.map pstrip).any (fun c => decide (c = pyS "ID")) &&
    (dlT.cols.map pstrip).any
      (fun c => decide (c = pyS "Approved final grade"))

/-- `df_roster_sub` after cleaning: stripped identifier and
stripped-uppercased letter grade, per roster data row. -/
def rosterRowsPrep (roster : Table) (sidName : PyStr) :
    List (PyStr × PyStr) :=
  let rcols := roster.cols.map pstrip
  let sidIdx := (findCol rcols sidName).getD 0
  let lgIdx := (findCol rcols (pyS "Letter Grade")).getD 0
  roster.rows.map (fun r => (pstrip (cellAt r sidIdx), pclean (cellAt r lgIdx)))

/-- `df_downloaded_sub` after cleaning: stripped `ID`, cleaned
`Approved final grade`, and cleaned `Withdrawn` (synthesised as the empty
string when the column is absent). -/
def dlRowsPrep (dlT : Table) : List (PyStr × PyStr × PyStr) :=
  let dcols := dlT.cols.map pstrip
  let idIdx := (findCol dcols (pyS "ID")).getD 0
  let agIdx := (findCol dcols (pyS "Approved final grade")).getD 0
  let wdIdx := findCol dcols (pyS "Withdrawn")
  dlT.rows.map (fun r =>
    (pstrip (cellAt r idIdx), pclean (cellAt r agIdx),
      match wdIdx with
      | some j => pclean (cellAt r j)
      | none => []))

/-- The merged frame of one course. -/
def courseMerged (roster dlT : Table) (sidName : PyStr) : List MergedRow :=
  outerMerge (rosterRowsPrep roster sidName) (dlRowsPrep dlT)

/-- The merged frame after the admission filter on `ID_final`. -/
def courseFiltered (roster dlT : Table) (sidName : PyStr) : List MergedRow :=
  (courseMerged roster dlT sidName).filter (fun m => admission (idFinal m))

/-- The numeric-identifier rows that feed `result` and `valid_ids`. -/
def courseResultRows (roster dlT : Table) (sidName : PyStr) : List MergedRow :=
  (courseFiltered roster dlT sidName).filter (fun m => pyIsNumeric (idFinal m))

/-- `withdrawn_ids`: the `ID_final` of every admitted withdrawn row, taken
before the numeric-identifier filter, with one entry per row. -/
def courseWithdrawnIds (roster dlT : Table) (sidName : PyStr) : List PyStr :=
  ((courseFiltered roster dlT sidName).filter isWithdrawnRow).map idFinal

/-- `valid_ids`: numeric identifiers fed into the unique-student set. -/
def courseValidIds (roster dlT : Table) (sidName : PyStr) : List PyStr :=
  (courseResultRows roster dlT sidName).map idFinal

/-- The `result` frame of one course. -/
def courseData (c : PyStr) (roster dlT : Table) (sidName : PyStr) :
    List OutRow :=
  (courseResultRows roster dlT sidName).map (fun m =>
    OutRow.mk c (idFinal m) (m.lg.getD nanS) (m.ag.getD nanS)
      (matchedRow m) (isWithdrawnRow m))

/-- `unmatched = result[~result['matched']]`. -/
def courseUnmatched (c : PyStr) (roster dlT : Table) (sidName : PyStr) :
    List OutRow :=
  (courseData c roster dlT sidName).filter (fun r => !r.matched)

/-- Process one paired course (the body of the `try` block): header
detection, column validation, merge, classification, and the outcome
dictionary. Also returns `valid_ids`, the numeric identifiers fed into the
unique-student set. -/
def processCourse (course tmpPath : PyStr) (grid : List (List PyStr))
    (dlT : Table) : CourseOutcome × List PyStr :=
  match read_roster_file tmpPath grid with
  | .error msg => (errOutcome course msg, [])
  | .ok roster =>
    match sidResolve roster with
    | none =>
        (errOutcome course (pyS "Required student id column is missing."), [])
    | some sidName =>
      if !rosterLgOk roster then
        (errOutcome course (pyS "'Letter Grade' column is missing."), [])
      else if !dlColsOk dlT then
        (errOutcome course
          (pyS "Required columns are missing in downloaded file."), [])
      else
        let withdrawnIds := courseWithdrawnIds roster dlT sidName
        let data := courseData course roster dlT sidName
        let unmatched := courseUnmatched course roster dlT sidName
        let msg := pyS "Processed " ++ pyOfNat data.length ++
          pyS " students, found " ++ pyOfNat unmatched.length ++
          pyS " mismatches, " ++ pyOfNat withdrawnIds.length ++ pyS " withdrawn"
        (⟨course, .success, msg, some data, unmatched, withdrawnIds⟩,
         courseValidIds roster dlT sidName)

/-- The mutable state of the `compare_grades` loop. -/
structure RunState where
  outcomes : List CourseOutcome
  allUnmatched : List (List OutRow)
  uniq : Finset PyStr
  total_courses : Nat
  courses_with_mismatches : Nat
  total_mismatches : Nat
  total_students : Nat
  withdrawn_students : Nat
  k : Nat

/-- Initial loop state. -/
def initState : RunState := ⟨[], [], ∅, 0, 0, 0, 0, 0, 0⟩

/-- The downloaded-file dictionary: for duplicate stems the last file wins
(dict-comprehension semantics). -/
def dictLookup (files : List (PyStr × Table)) (name : PyStr) : Option Table :=
  (files.reverse.find? (fun f => decide (f.1 = name))).map (·.2)

/-- `unique_student_ids.update(valid_ids)`. -/
def insertAll (s : Finset PyStr) (l : List PyStr) : Finset PyStr :=
  l.foldl (fun s i => insert i s) s

/-- One iteration of the `for roster_file in roster_files` loop. A paired
course consumes two OS temp-file names from `supply` (index `k`); the
roster one appears in header-error messages. -/
def step (supply : List PyStr) (dl : List (PyStr × Table)) (st : RunState)
    (f : PyStr × List (List PyStr)) : RunState :=
  match dictLookup dl f.1 with
  | none =>
      { st with outcomes := st.outcomes ++
          [errOutcome f.1 (pyS "No matching downloaded file found")] }
  | some t =>
    let pr := processCourse f.1 (supply.getD st.k []) f.2 t
    let out := pr.1
    match out.status with
    | .error =>
        { st with
          outcomes := st.outcomes ++ [out]
          total_courses := st.total_courses + 1
          k := st.k + 2 }
    | .success =>
        { outcomes := st.outcomes ++ [out]
          allUnmatched :=
            if out.unmatched.isEmpty then st.allUnmatched
            else st.allUnmatched ++ [out.unmatched]
          uniq := insertAll st.uniq pr.2
          total_courses := st.total_courses + 1
          courses_with_mismatches := st.courses_with_mismatches +
            (if out.unmatched.isEmpty then 0 else 1)
          total_mismatches := st.total_mismatches + out.unmatched.length
          total_students := st.total_students + (out.data.getD []).length
          withdrawn_students := st.withdrawn_students + out.withdrawn.length
          k := st.k + 2 }

/-- `summary_stats` as returned to the caller. -/
structure Summary where
  total_courses : Nat
  courses_with_mismatches : Nat
  total_mismatches : Nat
  total_students : Nat
  unique_students : Nat
  withdrawn_students : Nat
deriving DecidableEq

/-- `compare_grades`: fold the per-course step over the roster files and
read off `(results, summary_stats, all_unmatched)`. -/
def compare_grades (supply : List PyStr)
    (rosterFiles : List (PyStr × List (List PyStr)))
    (dlFiles : List (PyStr × Table)) :
    List CourseOutcome × Summary × List (List OutRow) :=
  let st := rosterFiles.foldl (step supply dlFiles) initState
  (st.outcomes,
   ⟨st.total_courses, st.courses_with_mismatches, st.total_mismatches,
    st.total_students, st.uniq.card, st.withdrawn_students⟩,
   st.allUnmatched)

/-! ## Batch fold machinery -/

/-- The supply-independent part of an outcome — everything except the
message (error messages embed the OS temp path). -/
def outcomeCore (o : CourseOutcome) :
    PyStr × Status × Option (List OutRow) × List OutRow × List PyStr :=
  (o.course, o.status, o.data, o.unmatched, o.withdrawn)

/-- The outcome appended for one roster file at cursor `k`. -/
def stepOutcome (supply : List PyStr) (dl : List (PyStr × Table)) (k : Nat)
    (f : PyStr × List (List PyStr)) : CourseOutcome :=
  match dictLookup dl f.1 with
  | none => errOutcome f.1 (pyS "No matching downloaded file found")
  | some t => (processCourse f.1 (supply.getD k []) f.2 t).1

/-- Cursor advance for one roster file (a paired course writes two temp
files). -/
def nextK (dl : List (PyStr × Table)) (k : Nat)
    (f : PyStr × List (List PyStr)) : Nat :=
  match dictLookup dl f.1 with
  | none => k
  | some _ => k + 2

/-- Cursor after a prefix of roster files. -/
def kRun (dl : List (PyStr × Table)) (k : Nat) :
    List (PyStr × List (List PyStr)) → Nat
  | [] => k
  | f :: fs => kRun dl (nextK dl k f) fs

/-- Outcome list of a run starting at cursor `k`. -/
def outcomesRun (supply : List PyStr) (dl : List (PyStr × Table)) (k : Nat) :
    List (PyStr × List (List PyStr)) → List CourseOutcome
  | [] => []
  | f :: fs =>
      stepOutcome supply dl k f :: outcomesRun supply dl (nextK dl k f) fs

/-! ## Error courses contribute no statistics (C3) -/

/-- The five summary statistics other than `total_courses`, as carried in
the loop state (`uniq` finalizes into `unique_students`). -/
structure CoreStats where
  total_students : Nat
  uniq : Finset PyStr
  total_mismatches : Nat
  courses_with_mismatches : Nat
  withdrawn_students : Nat

/-- Project the loop state onto its statistics. -/
def statsOf (st : RunState) : CoreStats :=
  ⟨st.total_students, st.uniq, st.total_mismatches,
   st.courses_with_mismatches, st.withdrawn_students⟩

/-- Statistics update of one roster file; the temp path never enters any
statistic, so the dummy path `[]` serves. -/
def statsUpd (dl : List (PyStr × Table)) (cs : CoreStats)
    (f : PyStr × List (List PyStr)) : CoreStats :=
  match dictLookup dl f.1 with
  | none => cs
  | some t =>
    let pr := processCourse f.1 [] f.2 t
    match pr.1.status with
    | .error => cs
    | .success =>
        ⟨cs.total_students + (pr.1.data.getD []).length,
         insertAll cs.uniq pr.2,
         cs.total_mismatches + pr.1.unmatched.length,
         cs.courses_with_mismatches +
           (if pr.1.unmatched.isEmpty then 0 else 1),
         cs.withdrawn_students + pr.1.withdrawn.length⟩

/-- Status of one roster file's outcome (path-independent). -/
def courseStatus (dl : List (PyStr × Table))
    (f : PyStr × List (List PyStr)) : Status :=
  match dictLookup dl f.1 with
  | none => .error
  | some t => (processCourse f.1 [] f.2 t).1.status

/-! ## Unique versus total students (C6) -/

/-- All identifiers of admitted rows, across the outcomes of a run, with
multiplicity. -/
def allAdmittedIds (outs : List CourseOutcome) : List PyStr :=
  outs.flatMap (fun o => (o.data.getD []).map (·.id_final))

/-! ## Determinism up to temp-file names (C10) -/

/-- The parts of the loop state that cannot depend on the temp-name
supply: everything except the outcome messages. -/
def runRel (st1 st2 : RunState) : Prop :=
  st1.outcomes.map outcomeCore = st2.outcomes.map outcomeCore ∧
  st1.allUnmatched = st2.allUnmatched ∧
  st1.uniq = st2.uniq ∧
  st1.total_courses = st2.total_courses ∧
  st1.courses_with_mismatches = st2.courses_with_mismatches ∧
  st1.total_mismatches = st2.total_mismatches ∧
  st1.total_students = st2.total_students ∧
  st1.withdrawn_students = st2.withdrawn_students ∧
  st1.k = st2.k

/-! ## String-model lemmas -/

theorem upCode_upCode (c : Nat) : upCode (upCode c) = upCode c := by
  unfold upCode
  by_cases h : 97 ≤ c ∧ c ≤ 122
  · rw [if_pos h, if_neg (by omega)]
  · rw [if_neg h, if_neg h]

theorem isSpaceCode_upCode (c : Nat) :
    isSpaceCode (upCode c) = isSpaceCode c := by
  unfold upCode isSpaceCode
  by_cases h : 97 ≤ c ∧ c ≤ 122
  · rw [if_pos h]
    exact decide_eq_decide.mpr (by omega)
  · rw [if_neg h]

theorem dropWhile_idem (p : α → Bool) (l : List α) :
    (l.dropWhile p).dropWhile p = l.dropWhile p := by
  induction l with
  | nil => rfl
  | cons a t ih =>
      by_cases h : p a
      · rw [List.dropWhile_cons, if_pos h, ih]
      · rw [List.dropWhile_cons, if_neg h, List.dropWhile_cons, if_neg h]

theorem dropWhile_map_comm (p : β → Bool) (f : α → β) (l : List α) :
    (l.map f).dropWhile p = (l.dropWhile (fun a => p (f a))).map f := by
  induction l with
  | nil => rfl
  | cons a t ih =>
      by_cases h : p (f a) <;>
        simp [List.dropWhile_cons, h, ih]

theorem dropWhile_suffix (p : α → Bool) (l : List α) : l.dropWhile p <:+ l := by
  induction l with
  | nil => exact ⟨[], rfl⟩
  | cons a t ih =>
      by_cases h : p a
      · rw [List.dropWhile_cons, if_pos h]
        exact ih.trans (List.suffix_cons a t)
      · rw [List.dropWhile_cons, if_neg h]

theorem length_dropWhile_le (p : α → Bool) (l : List α) :
    (l.dropWhile p).length ≤ l.length :=
  (dropWhile_suffix p l).length_le

theorem dropWhile_cons_self (p : α → Bool) (a : α) (l : List α)
    (h : (a :: l).dropWhile p = a :: l) : p a = false := by
  by_cases hp : p a
  · exfalso
    rw [List.dropWhile_cons, if_pos hp] at h
    have := congrArg List.length h
    have hl := length_dropWhile_le p l
    simp at this
    omega
  · exact Bool.eq_false_iff.mpr hp

theorem dropWhile_eq_self_of_prefix (p : α → Bool) {m n : List α}
    (hpre : m <+: n) (hn : n.dropWhile p = n) : m.dropWhile p = m := by
  cases m with
  | nil => rfl
  | cons a t =>
      obtain ⟨s, rfl⟩ := hpre
      have ha : p a = false := dropWhile_cons_self p a (t ++ s) hn
      rw [List.dropWhile_cons, if_neg (by simp [ha])]

theorem pstrip_right_prefix (s : PyStr) :
    (s.reverse.dropWhile isSpaceCode).reverse <+: s := by
  have h := dropWhile_suffix isSpaceCode s.reverse
  have h2 : (s.reverse.dropWhile isSpaceCode).reverse <+: s.reverse.reverse :=
    (List.reverse_prefix).mpr h
  simpa using h2

theorem pstrip_pstrip (s : PyStr) : pstrip (pstrip s) = pstrip s := by
  unfold pstrip
  set A := s.dropWhile isSpaceCode with hA
  set R := (A.reverse.dropWhile isSpaceCode).reverse with hR
  have hAdrop : A.dropWhile isSpaceCode = A := dropWhile_idem isSpaceCode s
  have hRpre : R <+: A := pstrip_right_prefix A
  have hRdrop : R.dropWhile isSpaceCode = R :=
    dropWhile_eq_self_of_prefix isSpaceCode hRpre hAdrop
  rw [hRdrop, hR, List.reverse_reverse, dropWhile_idem]

theorem pupper_pupper (s : PyStr) : pupper (pupper s) = pupper s := by
  unfold pupper
  rw [List.map_map]
  congr 1
  funext c
  exact upCode_upCode c

theorem pstrip_pupper (s : PyStr) : pstrip (pupper s) = pupper (pstrip s) := by
  have hp : (fun a => isSpaceCode (upCode a)) = isSpaceCode :=
    funext isSpaceCode_upCode
  unfold pstrip pupper
  rw [dropWhile_map_comm, hp, ← List.map_reverse, dropWhile_map_comm, hp,
    ← List.map_reverse]

theorem pclean_pclean (s : PyStr) : pclean (pclean s) = pclean s := by
  unfold pclean
  rw [pstrip_pupper, pupper_pupper, pstrip_pstrip]

/-- C9: `normalize_grade` is idempotent. -/
theorem normalize_grade_idem (g : PyStr) :
    normalize_grade (normalize_grade g) = normalize_grade g := by
  by_cases h1 : pclean g = pyS "P" ∨ pclean g = pyS "PASS"
  · have e : normalize_grade g = pyS "PASS" := by
      unfold normalize_grade
      rw [if_pos h1]
    rw [e]
    decide
  · by_cases h2 : pclean g = pyS "ABSENT" ∨ pclean g = pyS "ABS"
    · have e : normalize_grade g = pyS "ABSENT" := by
        unfold normalize_grade
        rw [if_neg h1, if_pos h2]
      rw [e]
      decide
    · have e : normalize_grade g = pclean g := by
        unfold normalize_grade
        rw [if_neg h1, if_neg h2]
      rw [e]
      unfold normalize_grade
      rw [pclean_pclean, if_neg h1, if_neg h2]

/-- C1: a joined row is flagged mismatched exactly when it is present on
both sides and the normalized grades disagree under the `ABSENT`-to-`F`
rule; one-sided rows are always `matched`. -/
theorem mismatch_rule (rp : List (PyStr × PyStr))
    (dp : List (PyStr × PyStr × PyStr)) (m : MergedRow)
    (_hm : m ∈ outerMerge rp dp) :
    (matchedRow m = false ↔
      (m.origin = .both ∧
        ((normR m = pyS "ABSENT" ∧ normD m ≠ pyS "F") ∨
         (normR m ≠ pyS "ABSENT" ∧ normR m ≠ normD m)))) ∧
    (m.origin ≠ .both → matchedRow m = true) := by
  constructor
  · unfold matchedRow mismatchRow
    simp
    tauto
  · intro h
    unfold matchedRow mismatchRow
    simp [h]

/-- C1 witness: a concrete roster-only row is matched. -/
theorem mismatch_rule_witness :
    matchedRow ⟨some (pyS "100"), some (pyS "A"), none, none, none,
      .leftOnly⟩ = true :=
  (mismatch_rule [(pyS "100", pyS "A")] []
    ⟨some (pyS "100"), some (pyS "A"), none, none, none, .leftOnly⟩
    (by decide)).2 (by decide)

/-! ## Merge provenance and the withdrawal rule -/

theorem outerMerge_right_provenance (rp : List (PyStr × PyStr))
    (dp : List (PyStr × PyStr × PyStr)) (m : MergedRow)
    (hm : m ∈ outerMerge rp dp) :
    (m.ag = none ∧ m.wd = none) ∨
      ∃ d ∈ dp, m.ag = some d.2.1 ∧ m.wd = some d.2.2 := by
  unfold outerMerge at hm
  rw [List.mem_append] at hm
  rcases hm with h | h
  · rw [List.mem_flatMap] at h
    obtain ⟨r, hr, hmem⟩ := h
    dsimp only at hmem
    by_cases he : (dp.filter (fun d => decide (d.1 = r.1))).isEmpty = true
    · rw [if_pos he, List.mem_singleton] at hmem
      subst hmem
      left
      exact ⟨rfl, rfl⟩
    · rw [if_neg he, List.mem_map] at hmem
      obtain ⟨d, hd, rfl⟩ := hmem
      right
      exact ⟨d, List.mem_of_mem_filter hd, rfl, rfl⟩
  · rw [List.mem_map] at h
    obtain ⟨d, hd, rfl⟩ := h
    right
    exact ⟨d, List.mem_of_mem_filter hd, rfl, rfl⟩

theorem dlRowsPrep_clean (dlT : Table) (d : PyStr × PyStr × PyStr)
    (hd : d ∈ dlRowsPrep dlT) : pclean d.2.1 = d.2.1 ∧ pclean d.2.2 = d.2.2 := by
  simp only [dlRowsPrep, List.mem_map] at hd
  obtain ⟨r, hr, rfl⟩ := hd
  refine ⟨pclean_pclean _, ?_⟩
  cases hw : findCol (dlT.cols.map pstrip) (pyS "Withdrawn") with
  | none => simp only [hw]; rfl
  | some j => simp only [hw]; exact pclean_pclean _

/-- C5: a joined row is withdrawn exactly when its (already
stripped-and-uppercased) approved grade is `W` or its withdrawn flag is
`WITHDRAWN`; these downloaded-side fields are normalization fixpoints, so
the comparison is the case-normalized one; and withdrawal is independent of
mismatch: a concrete row is both withdrawn and mismatched. -/
theorem withdrawn_rule (roster dlT : Table) (sidName : PyStr) (m : MergedRow)
    (hm : m ∈ courseMerged roster dlT sidName) :
    ((isWithdrawnRow m = true ↔
        (m.ag = some (pyS "W") ∨ m.wd = some (pyS "WITHDRAWN"))) ∧
      (∀ a, m.ag = some a → pclean a = a) ∧
      (∀ w, m.wd = some w → pclean w = w)) ∧
    ((processCourse (pyS "C1") (pyS "t")
        [[pyS "SID", pyS "Letter Grade"], [pyS "100", pyS "A"]]
        ⟨[pyS "ID", pyS "Approved final grade"],
         [[pyS "100", pyS "W"]]⟩).1.data.getD []).any
      (fun r => r.is_withdrawn && !r.matched) = true := by
  constructor
  · have hprov := outerMerge_right_provenance _ _ m hm
    refine ⟨?_, ?_, ?_⟩
    · unfold isWithdrawnRow
      simp
    · intro a ha
      rcases hprov with ⟨h1, _⟩ | ⟨d, hd, h1, _⟩
      · rw [h1] at ha
        cases ha
      · rw [h1] at ha
        obtain rfl : d.2.1 = a := Option.some_injective _ ha
        exact (dlRowsPrep_clean dlT d hd).1
    · intro w hw
      rcases hprov with ⟨_, h2⟩ | ⟨d, hd, _, h2⟩
      · rw [h2] at hw
        cases hw
      · rw [h2] at hw
        obtain rfl : d.2.2 = w := Option.some_injective _ hw
        exact (dlRowsPrep_clean dlT d hd).2
  · decide

/-- C5 witness: a concrete downloaded-only row with approved grade `W`. -/
theorem withdrawn_rule_witness :
    isWithdrawnRow ⟨none, none, some (pyS "103"), some (pyS "W"),
      some (pyS ""), .rightOnly⟩ = true :=
  ((withdrawn_rule ⟨[pyS "SID", pyS "Letter Grade"], []⟩
      ⟨[pyS "ID", pyS "Approved final grade", pyS "Withdrawn"],
       [[pyS "103", pyS "W", pyS ""]]⟩ (pyS "SID")
      ⟨none, none, some (pyS "103"), some (pyS "W"), some (pyS ""),
        .rightOnly⟩ (by decide)).1.1).mpr (by decide)

/-! ## Per-course outcome shape -/

/-- Every call of `processCourse` either fails (empty `data`, `unmatched`,
`withdrawn`, `valid_ids`) or succeeds with the frames of the
merge-filter-classify pipeline. -/
theorem processCourse_cases (c p : PyStr) (g : List (List PyStr)) (t : Table) :
    ((processCourse c p g t).1.status = .error ∧
      (processCourse c p g t).1.data = none ∧
      (processCourse c p g t).1.unmatched = [] ∧
      (processCourse c p g t).1.withdrawn = [] ∧
      (processCourse c p g t).2 = []) ∨
    (∃ roster sidName, read_roster_file p g = .ok roster ∧
      sidResolve roster = some sidName ∧
      rosterLgOk roster = true ∧ dlColsOk t = true ∧
      (processCourse c p g t).1.status = .success ∧
      (processCourse c p g t).1.data = some (courseData c roster t sidName) ∧
      (processCourse c p g t).1.unmatched = courseUnmatched c roster t sidName ∧
      (processCourse c p g t).1.withdrawn = courseWithdrawnIds roster t sidName ∧
      (processCourse c p g t).2 = courseValidIds roster t sidName) := by
  rcases hr : read_roster_file p g with msg | roster
  · left
    simp [processCourse, hr, errOutcome]
  · rcases hs : sidResolve roster with _ | sidName
    · left
      simp [processCourse, hr, hs, errOutcome]
    · by_cases hlg : rosterLgOk roster = true
      · by_cases hdl : dlColsOk t = true
        · right
          refine ⟨roster, sidName, rfl, hs, hlg, hdl, ?_, ?_, ?_, ?_, ?_⟩ <;>
            simp [processCourse, hr, hs, hlg, hdl]
        · left
          have hdl' : dlColsOk t = false := Bool.eq_false_iff.mpr hdl
          simp [processCourse, hr, hs, hlg, hdl', errOutcome]
      · left
        have hlg' : rosterLgOk roster = false := Bool.eq_false_iff.mpr hlg
        simp [processCourse, hr, hs, hlg', errOutcome]

theorem courseFiltered_mem (roster t : Table) (sid : PyStr) (m : MergedRow)
    (hm : m ∈ courseFiltered roster t sid) :
    m ∈ courseMerged roster t sid ∧ admission (idFinal m) = true := by
  unfold courseFiltered at hm
  exact ⟨List.mem_of_mem_filter hm, (List.mem_filter.mp hm).2⟩

theorem courseResultRows_mem (roster t : Table) (sid : PyStr) (m : MergedRow)
    (hm : m ∈ courseResultRows roster t sid) :
    admission (idFinal m) = true ∧ pyIsNumeric (idFinal m) = true := by
  unfold courseResultRows at hm
  exact ⟨(courseFiltered_mem roster t sid m (List.mem_of_mem_filter hm)).2,
    (List.mem_filter.mp hm).2⟩

/-- C2 (amended): every row that reaches `rows` (`data`), `valid_ids`
(hence `total_students`/`unique_students`) or `unmatched` (hence
mismatch statistics) has an identifier that passes the admission filter and
is all digits; `withdrawn_ids` entries pass the admission filter but are
not subjected to the digit test. -/
theorem admission_filter_amended (c p : PyStr) (g : List (List PyStr))
    (t : Table) :
    (∀ r ∈ (processCourse c p g t).1.data.getD [],
      admission r.id_final = true ∧ pyIsNumeric r.id_final = true) ∧
    (∀ i ∈ (processCourse c p g t).2,
      admission i = true ∧ pyIsNumeric i = true) ∧
    (∀ r ∈ (processCourse c p g t).1.unmatched,
      r ∈ (processCourse c p g t).1.data.getD []) ∧
    (∀ i ∈ (processCourse c p g t).1.withdrawn, admission i = true) := by
  rcases processCourse_cases c p g t with ⟨_, hd, hu, hw, hv⟩ |
    ⟨roster, sidName, _, _, _, _, _, hd, hu, hw, hv⟩
  · rw [hd, hu, hw, hv]
    simp
  · rw [hd, hu, hw, hv]
    simp only [Option.getD_some]
    refine ⟨?_, ?_, ?_, ?_⟩
    · intro r hr
      unfold courseData at hr
      rw [List.mem_map] at hr
      obtain ⟨m, hm, rfl⟩ := hr
      exact courseResultRows_mem _ _ _ _ hm
    · intro i hi
      unfold courseValidIds at hi
      rw [List.mem_map] at hi
      obtain ⟨m, hm, rfl⟩ := hi
      exact courseResultRows_mem _ _ _ _ hm
    · intro r hr
      unfold courseUnmatched at hr
      exact List.mem_of_mem_filter hr
    · intro i hi
      unfold courseWithdrawnIds at hi
      rw [List.mem_map] at hi
      obtain ⟨m, hm, rfl⟩ := hi
      exact (courseFiltered_mem _ _ _ _ (List.mem_of_mem_filter hm)).2

/-- C2 witness: a digit identifier survives into `rows`. -/
theorem admission_filter_amended_witness :
    admission (pyS "12345") = true ∧ pyIsNumeric (pyS "12345") = true :=
  (admission_filter_amended (pyS "C1") (pyS "t")
    [[pyS "SID", pyS "Letter Grade"], [pyS "12345", pyS "A"]]
    ⟨[pyS "ID", pyS "Approved final grade"], [[pyS "12345", pyS "A"]]⟩).1
    ⟨pyS "C1", pyS "12345", pyS "A", pyS "A", true, false⟩ (by decide)

/-- C2 counterexample: a joined row whose resolved identifier `abc123` is
neither empty nor `nan` but fails the digit test appears in no `rows`
(`data = some []`) yet still raises `withdrawn_students` to 1. -/
theorem admission_filter_counterexample :
    (compare_grades [pyS "t0", pyS "t1"]
        [(pyS "C1", [[pyS "SID", pyS "Letter Grade"], [pyS "abc123", pyS "W"]])]
        [(pyS "C1", ⟨[pyS "ID", pyS "Approved final grade"],
          [[pyS "abc123", pyS "W"]]⟩)]).2.1.withdrawn_students = 1 ∧
    ((compare_grades [pyS "t0", pyS "t1"]
        [(pyS "C1", [[pyS "SID", pyS "Letter Grade"], [pyS "abc123", pyS "W"]])]
        [(pyS "C1", ⟨[pyS "ID", pyS "Approved final grade"],
          [[pyS "abc123", pyS "W"]]⟩)]).1.getD 0
        (errOutcome [] [])).data = some [] := by
  decide

/-- C7 (amended): `withdrawn_ids` lists the resolved identifier of every
admitted withdrawn joined row, one entry per such row, in row order (it is
a list, not a deduplicated set). -/
theorem withdrawn_ids_per_row (c p : PyStr) (g : List (List PyStr))
    (t roster : Table) (sidName : PyStr)
    (hr : read_roster_file p g = .ok roster)
    (hs : sidResolve roster = some sidName)
    (hlg : rosterLgOk roster = true) (hdl : dlColsOk t = true) :
    (processCourse c p g t).1.withdrawn =
      ((courseFiltered roster t sidName).filter isWithdrawnRow).map idFinal := by
  simp [processCourse, hr, hs, hlg, hdl, courseWithdrawnIds]

/-- C7 witness: the per-row list evaluated on a concrete course. -/
theorem withdrawn_ids_per_row_witness :
    (processCourse (pyS "C1") (pyS "t")
        [[pyS "SID", pyS "Letter Grade"], [pyS "100", pyS "W"],
          [pyS "100", pyS "W"]]
        ⟨[pyS "ID", pyS "Approved final grade"],
          [[pyS "100", pyS "W"]]⟩).1.withdrawn =
      ((courseFiltered
          ⟨[pyS "SID", pyS "Letter Grade"],
            [[pyS "100", pyS "W"], [pyS "100", pyS "W"]]⟩
          ⟨[pyS "ID", pyS "Approved final grade"], [[pyS "100", pyS "W"]]⟩
          (pyS "SID")).filter isWithdrawnRow).map idFinal :=
  withdrawn_ids_per_row (pyS "C1") (pyS "t") _ _ _ (pyS "SID")
    (by rfl) (by decide) (by decide) (by decide)

/-- C7 counterexample: one course in which the identifier `100` occurs on
two withdrawn joined rows; its `withdrawn_ids` is `[100, 100]`, which has a
duplicate. -/
theorem withdrawn_ids_dup_counterexample :
    ((compare_grades [pyS "t0", pyS "t1"]
        [(pyS "C1", [[pyS "SID", pyS "Letter Grade"],
          [pyS "100", pyS "W"], [pyS "100", pyS "W"]])]
        [(pyS "C1", ⟨[pyS "ID", pyS "Approved final grade"],
          [[pyS "100", pyS "W"]]⟩)]).1.getD 0
        (errOutcome [] [])).withdrawn = [pyS "100", pyS "100"] ∧
    ¬ (((compare_grades [pyS "t0", pyS "t1"]
        [(pyS "C1", [[pyS "SID", pyS "Letter Grade"],
          [pyS "100", pyS "W"], [pyS "100", pyS "W"]])]
        [(pyS "C1", ⟨[pyS "ID", pyS "Approved final grade"],
          [[pyS "100", pyS "W"]]⟩)]).1.getD 0
        (errOutcome [] [])).withdrawn.Nodup) := by
  decide

/-- `processCourse` depends on the temp-file path only through the error
message. -/
theorem processCourse_path (c p q : PyStr) (g : List (List PyStr))
    (t : Table) :
    outcomeCore (processCourse c p g t).1 =
      outcomeCore (processCourse c q g t).1 ∧
    (processCourse c p g t).2 = (processCourse c q g t).2 := by
  unfold processCourse read_roster_file
  cases h : findHeaderRow g <;> simp [outcomeCore, errOutcome]

/-- `processCourse` always reports back the course it was given. -/
theorem processCourse_course (c p : PyStr) (g : List (List PyStr))
    (t : Table) : (processCourse c p g t).1.course = c := by
  rcases hr : read_roster_file p g with msg | roster
  · simp [processCourse, hr, errOutcome]
  · rcases hs : sidResolve roster with _ | sidName
    · simp [processCourse, hr, hs, errOutcome]
    · by_cases hlg : rosterLgOk roster = true
      · by_cases hdl : dlColsOk t = true
        · simp [processCourse, hr, hs, hlg, hdl]
        · simp [processCourse, hr, hs, hlg, Bool.eq_false_iff.mpr hdl,
            errOutcome]
      · simp [processCourse, hr, hs, Bool.eq_false_iff.mpr hlg, errOutcome]

theorem step_outcomes (supply : List PyStr) (dl : List (PyStr × Table))
    (st : RunState) (f : PyStr × List (List PyStr)) :
    (step supply dl st f).outcomes =
      st.outcomes ++ [stepOutcome supply dl st.k f] := by
  unfold step stepOutcome
  cases h : dictLookup dl f.1 with
  | none => rfl
  | some t =>
      dsimp only
      cases hs : (processCourse f.1 (supply.getD st.k []) f.2 t).1.status <;>
        rfl

theorem step_k (supply : List PyStr) (dl : List (PyStr × Table))
    (st : RunState) (f : PyStr × List (List PyStr)) :
    (step supply dl st f).k = nextK dl st.k f := by
  unfold step nextK
  cases h : dictLookup dl f.1 with
  | none => rfl
  | some t =>
      dsimp only
      cases hs : (processCourse f.1 (supply.getD st.k []) f.2 t).1.status <;>
        rfl

theorem foldl_outcomes (supply : List PyStr) (dl : List (PyStr × Table))
    (l : List (PyStr × List (List PyStr))) : ∀ st : RunState,
    (List.foldl (step supply dl) st l).outcomes =
      st.outcomes ++ outcomesRun supply dl st.k l := by
  induction l with
  | nil => intro st; simp [outcomesRun]
  | cons f fs ih =>
      intro st
      rw [List.foldl_cons, ih, step_outcomes, step_k]
      simp [outcomesRun]

theorem outcomesRun_length (supply : List PyStr) (dl : List (PyStr × Table))
    (l : List (PyStr × List (List PyStr))) : ∀ k,
    (outcomesRun supply dl k l).length = l.length := by
  induction l with
  | nil => intro k; rfl
  | cons f fs ih => intro k; simp [outcomesRun, ih]

theorem outcomesRun_append (supply : List PyStr) (dl : List (PyStr × Table))
    (A B : List (PyStr × List (List PyStr))) : ∀ k,
    outcomesRun supply dl k (A ++ B) =
      outcomesRun supply dl k A ++ outcomesRun supply dl (kRun dl k A) B := by
  induction A with
  | nil => intro k; simp [outcomesRun, kRun]
  | cons f fs ih => intro k; simp [outcomesRun, kRun, ih]

theorem stepOutcome_course (supply : List PyStr) (dl : List (PyStr × Table))
    (k : Nat) (f : PyStr × List (List PyStr)) :
    (stepOutcome supply dl k f).course = f.1 := by
  unfold stepOutcome
  cases h : dictLookup dl f.1 with
  | none => rfl
  | some t => exact processCourse_course f.1 (supply.getD k []) f.2 t

theorem outcomesRun_course (supply : List PyStr) (dl : List (PyStr × Table))
    (l : List (PyStr × List (List PyStr))) : ∀ k j, j < l.length →
    ((outcomesRun supply dl k l).getD j (errOutcome [] [])).course =
      (l.getD j ([], [])).1 := by
  induction l with
  | nil => intro k j hj; cases hj
  | cons f fs ih =>
      intro k j hj
      cases j with
      | zero => simpa [outcomesRun] using stepOutcome_course supply dl k f
      | succ j' =>
          simp only [outcomesRun, List.getD_cons_succ]
          exact ih _ j' (by simpa using hj)

theorem compare_grades_outcomes (supply : List PyStr)
    (files : List (PyStr × List (List PyStr))) (dl : List (PyStr × Table)) :
    (compare_grades supply files dl).1 = outcomesRun supply dl 0 files := by
  simp only [compare_grades]
  rw [foldl_outcomes]
  simp [initState]

/-! ## Header locator (C4) -/

theorem findHeaderRow_some (g : List (List PyStr)) : ∀ i : Nat,
    findHeaderRow g = some i →
    i < g.length ∧ headerPred (g.getD i []) = true ∧
      ∀ j < i, headerPred (g.getD j []) = false := by
  induction g with
  | nil => intro i h; cases h
  | cons row rest ih =>
      intro i h
      rw [findHeaderRow] at h
      by_cases hp : headerPred row = true
      · rw [if_pos hp] at h
        obtain rfl : (0 : Nat) = i := Option.some_injective _ h
        exact ⟨by simp, by simpa using hp, by intro j hj; omega⟩
      · rw [if_neg hp] at h
        cases hfr : findHeaderRow rest with
        | none => rw [hfr] at h; cases h
        | some i' =>
            rw [hfr] at h
            obtain rfl : i' + 1 = i := Option.some_injective _ h
            obtain ⟨h1, h2, h3⟩ := ih i' hfr
            refine ⟨by simpa using h1, by simpa using h2, ?_⟩
            intro j hj
            cases j with
            | zero => simpa using Bool.eq_false_iff.mpr hp
            | succ j' =>
                rw [List.getD_cons_succ]
                exact h3 j' (by omega)

theorem findHeaderRow_none (g : List (List PyStr))
    (h : findHeaderRow g = none) : ∀ r ∈ g, headerPred r = false := by
  induction g with
  | nil => intro r hr; cases hr
  | cons row rest ih =>
      rw [findHeaderRow] at h
      by_cases hp : headerPred row = true
      · rw [if_pos hp] at h; cases h
      · rw [if_neg hp] at h
        intro r hr
        rcases List.mem_cons.mp hr with rfl | hr'
        · exact Bool.eq_false_iff.mpr hp
        · cases hfr : findHeaderRow rest with
          | none => exact ih hfr r hr'
          | some i' => rw [hfr] at h; cases h

/-- C4: the header locator returns the index of the first row whose
uppercased-stripped cell set contains `LETTER GRADE` and meets
`{SID, STUDENT ID}`; when no row qualifies, `read_roster_file` fails with a
message naming the file it read, and in the batch that course alone gets a
`status = error` outcome while every roster file still yields exactly one
outcome, in order. -/
theorem header_locator_spec :
    (∀ (g : List (List PyStr)) (i : Nat), findHeaderRow g = some i →
      i < g.length ∧ headerPred (g.getD i []) = true ∧
        ∀ j < i, headerPred (g.getD j []) = false) ∧
    (∀ (g : List (List PyStr)) (p : PyStr), findHeaderRow g = none →
      read_roster_file p g =
        .error (pyS "Header row with required keywords not found in " ++ p)) ∧
    (∀ (supply : List PyStr) (dl : List (PyStr × Table))
      (A B : List (PyStr × List (List PyStr))) (name : PyStr)
      (g : List (List PyStr)) (t : Table),
      dictLookup dl name = some t → findHeaderRow g = none →
      (compare_grades supply (A ++ (name, g) :: B) dl).1.length =
        A.length + 1 + B.length ∧
      (compare_grades supply (A ++ (name, g) :: B) dl).1.getD A.length
          (errOutcome [] []) =
        errOutcome name
          (pyS "Header row with required keywords not found in " ++
            supply.getD (kRun dl 0 A) []) ∧
      ∀ j < (A ++ (name, g) :: B).length,
        ((compare_grades supply (A ++ (name, g) :: B) dl).1.getD j
            (errOutcome [] [])).course =
          ((A ++ (name, g) :: B).getD j ([], [])).1) := by
  refine ⟨findHeaderRow_some, ?_, ?_⟩
  · intro g p h
    unfold read_roster_file
    rw [h]
  · intro supply dl A B name g t hpair hnone
    rw [compare_grades_outcomes]
    have hlen : ∀ l k, (outcomesRun supply dl k l).length = l.length :=
      fun l k => outcomesRun_length supply dl l k
    refine ⟨by simp [hlen]; omega, ?_, ?_⟩
    · rw [outcomesRun_append, List.getD_append_right _ _ _ _ (by simp [hlen]),
        hlen]
      simp only [Nat.sub_self, outcomesRun, List.getD_cons_zero]
      unfold stepOutcome
      rw [hpair]
      simp only [processCourse, read_roster_file, hnone]
    · intro j hj
      exact outcomesRun_course supply dl _ 0 j (by simpa using hj)

/-- C4 witness: a two-course batch in which the first roster has no header
row; it gets the error outcome, the second course still processes. -/
theorem header_locator_spec_witness :
    (compare_grades [pyS "/tmp/a.xlsx", pyS "/tmp/b.csv"]
        [(pyS "BAD", [[pyS "no header"]]),
         (pyS "OK", [[pyS "SID", pyS "Letter Grade"]])]
        [(pyS "BAD", ⟨[pyS "ID", pyS "Approved final grade"], []⟩),
         (pyS "OK", ⟨[pyS "ID", pyS "Approved final grade"], []⟩)]).1.getD 0
        (errOutcome [] []) =
      errOutcome (pyS "BAD")
        (pyS "Header row with required keywords not found in /tmp/a.xlsx") :=
  ((header_locator_spec.2.2 [pyS "/tmp/a.xlsx", pyS "/tmp/b.csv"]
      [(pyS "BAD", ⟨[pyS "ID", pyS "Approved final grade"], []⟩),
       (pyS "OK", ⟨[pyS "ID", pyS "Approved final grade"], []⟩)]
      [] [(pyS "OK", [[pyS "SID", pyS "Letter Grade"]])]
      (pyS "BAD") [[pyS "no header"]]
      ⟨[pyS "ID", pyS "Approved final grade"], []⟩
      (by decide) (by decide)).2.1).trans (by decide)

theorem stepOutcome_status (supply : List PyStr) (dl : List (PyStr × Table))
    (k : Nat) (f : PyStr × List (List PyStr)) :
    (stepOutcome supply dl k f).status = courseStatus dl f := by
  unfold stepOutcome courseStatus
  cases h : dictLookup dl f.1 with
  | none => rfl
  | some t =>
      exact congrArg (fun x => x.2.1)
        (processCourse_path f.1 (supply.getD k []) [] f.2 t).1

theorem statsOf_step (supply : List PyStr) (dl : List (PyStr × Table))
    (st : RunState) (f : PyStr × List (List PyStr)) :
    statsOf (step supply dl st f) = statsUpd dl (statsOf st) f := by
  unfold step statsUpd
  cases h : dictLookup dl f.1 with
  | none => rfl
  | some t =>
      dsimp only
      have hpath := processCourse_path f.1 (supply.getD st.k []) [] f.2 t
      have hstat : (processCourse f.1 (supply.getD st.k []) f.2 t).1.status =
          (processCourse f.1 [] f.2 t).1.status :=
        congrArg (fun x => x.2.1) hpath.1
      have hdata : (processCourse f.1 (supply.getD st.k []) f.2 t).1.data =
          (processCourse f.1 [] f.2 t).1.data :=
        congrArg (fun x => x.2.2.1) hpath.1
      have hunm :
          (processCourse f.1 (supply.getD st.k []) f.2 t).1.unmatched =
          (processCourse f.1 [] f.2 t).1.unmatched :=
        congrArg (fun x => x.2.2.2.1) hpath.1
      have hwdn :
          (processCourse f.1 (supply.getD st.k []) f.2 t).1.withdrawn =
          (processCourse f.1 [] f.2 t).1.withdrawn :=
        congrArg (fun x => x.2.2.2.2) hpath.1
      rw [hstat]
      cases hs : (processCourse f.1 [] f.2 t).1.status with
      | error => rfl
      | success =>
          simp only [statsOf, hdata, hunm, hwdn, hpath.2]

theorem statsOf_foldl (supply : List PyStr) (dl : List (PyStr × Table))
    (l : List (PyStr × List (List PyStr))) : ∀ st : RunState,
    statsOf (List.foldl (step supply dl) st l) =
      List.foldl (statsUpd dl) (statsOf st) l := by
  induction l with
  | nil => intro st; rfl
  | cons f fs ih =>
      intro st
      rw [List.foldl_cons, List.foldl_cons, ih, statsOf_step]

theorem statsUpd_error (dl : List (PyStr × Table)) (cs : CoreStats)
    (f : PyStr × List (List PyStr)) (h : courseStatus dl f = .error) :
    statsUpd dl cs f = cs := by
  unfold statsUpd
  unfold courseStatus at h
  cases hd : dictLookup dl f.1 with
  | none => rfl
  | some t =>
      rw [hd] at h
      dsimp only at h ⊢
      rw [h]

/-- C3: a course whose outcome has `status = error` leaves every summary
statistic except `total_courses` exactly as if the course had not been
supplied at all. -/
theorem error_course_no_stats (supply : List PyStr)
    (dl : List (PyStr × Table)) (A B : List (PyStr × List (List PyStr)))
    (c : PyStr × List (List PyStr))
    (h : ((compare_grades supply (A ++ c :: B) dl).1.getD A.length
      (errOutcome [] [])).status = .error) :
    (compare_grades supply (A ++ c :: B) dl).2.1.total_students =
      (compare_grades supply (A ++ B) dl).2.1.total_students ∧
    (compare_grades supply (A ++ c :: B) dl).2.1.unique_students =
      (compare_grades supply (A ++ B) dl).2.1.unique_students ∧
    (compare_grades supply (A ++ c :: B) dl).2.1.total_mismatches =
      (compare_grades supply (A ++ B) dl).2.1.total_mismatches ∧
    (compare_grades supply (A ++ c :: B) dl).2.1.courses_with_mismatches =
      (compare_grades supply (A ++ B) dl).2.1.courses_with_mismatches ∧
    (compare_grades supply (A ++ c :: B) dl).2.1.withdrawn_students =
      (compare_grades supply (A ++ B) dl).2.1.withdrawn_students := by
  have hcs : courseStatus dl c = .error := by
    rw [compare_grades_outcomes, outcomesRun_append,
      List.getD_append_right _ _ _ _
        (by rw [outcomesRun_length]),
      outcomesRun_length, Nat.sub_self] at h
    simpa only [outcomesRun, List.getD_cons_zero, stepOutcome_status] using h
  have key : statsOf (List.foldl (step supply dl) initState (A ++ c :: B)) =
      statsOf (List.foldl (step supply dl) initState (A ++ B)) := by
    rw [statsOf_foldl, statsOf_foldl, List.foldl_append, List.foldl_append,
      List.foldl_cons, statsUpd_error dl _ c hcs]
  exact ⟨congrArg CoreStats.total_students key,
    congrArg (fun cs => cs.uniq.card) key,
    congrArg CoreStats.total_mismatches key,
    congrArg CoreStats.courses_with_mismatches key,
    congrArg CoreStats.withdrawn_students key⟩

/-- C3 witness: a roster with no matching downloaded file yields an error
outcome and the summary of a run without it. -/
theorem error_course_no_stats_witness :
    (compare_grades [] [(pyS "LONE", [[pyS "SID", pyS "Letter Grade"]])]
        []).2.1.total_students =
      (compare_grades [] [] []).2.1.total_students ∧
    (compare_grades [] [(pyS "LONE", [[pyS "SID", pyS "Letter Grade"]])]
        []).2.1.unique_students =
      (compare_grades [] [] []).2.1.unique_students ∧
    (compare_grades [] [(pyS "LONE", [[pyS "SID", pyS "Letter Grade"]])]
        []).2.1.total_mismatches =
      (compare_grades [] [] []).2.1.total_mismatches ∧
    (compare_grades [] [(pyS "LONE", [[pyS "SID", pyS "Letter Grade"]])]
        []).2.1.courses_with_mismatches =
      (compare_grades [] [] []).2.1.courses_with_mismatches ∧
    (compare_grades [] [(pyS "LONE", [[pyS "SID", pyS "Letter Grade"]])]
        []).2.1.withdrawn_students =
      (compare_grades [] [] []).2.1.withdrawn_students :=
  error_course_no_stats [] [] [] []
    (pyS "LONE", [[pyS "SID", pyS "Letter Grade"]]) (by decide)

theorem insertAll_eq (l : List PyStr) : ∀ s : Finset PyStr,
    insertAll s l = s ∪ l.toFinset := by
  induction l with
  | nil => intro s; simp [insertAll]
  | cons a t ih =>
      intro s
      show insertAll (insert a s) t = _
      rw [ih, List.toFinset_cons, Finset.insert_union, Finset.union_insert]

theorem processCourse_validIds (c p : PyStr) (g : List (List PyStr))
    (t : Table) :
    (processCourse c p g t).2 =
      ((processCourse c p g t).1.data.getD []).map (·.id_final) := by
  rcases processCourse_cases c p g t with ⟨_, hd, _, _, hv⟩ |
    ⟨roster, sid, _, _, _, _, _, hd, _, _, hv⟩
  · rw [hd, hv]
    rfl
  · rw [hd, hv]
    simp only [Option.getD_some]
    unfold courseValidIds courseData
    rw [List.map_map]
    rfl

/-- When the status is an error, every output collection is empty. -/
theorem processCourse_error_fields (c p : PyStr) (g : List (List PyStr))
    (t : Table) (h : (processCourse c p g t).1.status = .error) :
    (processCourse c p g t).1.data = none ∧
    (processCourse c p g t).1.unmatched = [] ∧
    (processCourse c p g t).1.withdrawn = [] ∧
    (processCourse c p g t).2 = [] := by
  rcases processCourse_cases c p g t with ⟨_, hd, hu, hw, hv⟩ |
    ⟨_, _, _, _, _, _, hs, _, _, _, _⟩
  · exact ⟨hd, hu, hw, hv⟩
  · rw [hs] at h
    cases h

theorem step_uniq_ts (supply : List PyStr) (dl : List (PyStr × Table))
    (st : RunState) (f : PyStr × List (List PyStr)) :
    (step supply dl st f).uniq = st.uniq ∪
      (((stepOutcome supply dl st.k f).data.getD []).map
        (·.id_final)).toFinset ∧
    (step supply dl st f).total_students = st.total_students +
      (((stepOutcome supply dl st.k f).data.getD []).map
        (·.id_final)).length := by
  unfold step stepOutcome
  cases h : dictLookup dl f.1 with
  | none => exact ⟨by simp [errOutcome], by simp [errOutcome]⟩
  | some t =>
      dsimp only
      cases hs : (processCourse f.1 (supply.getD st.k []) f.2 t).1.status with
      | error =>
          obtain ⟨hd, _, _, _⟩ :=
            processCourse_error_fields f.1 (supply.getD st.k []) f.2 t hs
          rw [hd]
          exact ⟨by simp, by simp⟩
      | success =>
          constructor
          · show insertAll st.uniq (processCourse f.1 (supply.getD st.k [])
              f.2 t).2 = _
            rw [processCourse_validIds, insertAll_eq]
          · show st.total_students + ((processCourse f.1 (supply.getD st.k [])
              f.2 t).1.data.getD []).length = _
            rw [List.length_map]

theorem run_uniq_ts (supply : List PyStr) (dl : List (PyStr × Table))
    (l : List (PyStr × List (List PyStr))) : ∀ st : RunState,
    (List.foldl (step supply dl) st l).uniq = st.uniq ∪
      (allAdmittedIds (outcomesRun supply dl st.k l)).toFinset ∧
    (List.foldl (step supply dl) st l).total_students = st.total_students +
      (allAdmittedIds (outcomesRun supply dl st.k l)).length := by
  induction l with
  | nil => intro st; simp [outcomesRun, allAdmittedIds]
  | cons f fs ih =>
      intro st
      rw [List.foldl_cons]
      obtain ⟨ih1, ih2⟩ := ih (step supply dl st f)
      obtain ⟨hs1, hs2⟩ := step_uniq_ts supply dl st f
      refine ⟨?_, ?_⟩
      · rw [ih1, hs1, step_k]
        simp [outcomesRun, allAdmittedIds, List.toFinset_append,
          Finset.union_assoc]
      · rw [ih2, hs2, step_k]
        simp [outcomesRun, allAdmittedIds, Nat.add_assoc]

/-- C6 (amended): `unique_students ≤ total_students` always, and equality
holds exactly when no identifier occurs on more than one admitted row of
the whole run (a duplicate inside a single course breaks equality just as a
cross-course enrollment does). -/
theorem unique_le_total (supply : List PyStr)
    (roster : List (PyStr × List (List PyStr)))
    (dl : List (PyStr × Table)) :
    (compare_grades supply roster dl).2.1.unique_students ≤
      (compare_grades supply roster dl).2.1.total_students ∧
    ((compare_grades supply roster dl).2.1.unique_students =
        (compare_grades supply roster dl).2.1.total_students ↔
      (allAdmittedIds (compare_grades supply roster dl).1).Nodup) := by
  obtain ⟨h1, h2⟩ := run_uniq_ts supply dl roster initState
  have hids : (compare_grades supply roster dl).1 =
      outcomesRun supply dl 0 roster := compare_grades_outcomes supply roster dl
  have hcard : (compare_grades supply roster dl).2.1.unique_students =
      (allAdmittedIds (outcomesRun supply dl 0 roster)).toFinset.card := by
    show (List.foldl (step supply dl) initState roster).uniq.card = _
    rw [h1]
    show ((∅ : Finset PyStr) ∪ _).card = _
    rw [Finset.empty_union]
    rfl
  have hts : (compare_grades supply roster dl).2.1.total_students =
      (allAdmittedIds (outcomesRun supply dl 0 roster)).length := by
    show (List.foldl (step supply dl) initState roster).total_students = _
    rw [h2]
    exact Nat.zero_add _
  rw [hcard, hts, hids]
  constructor
  · exact List.toFinset_card_le _
  · rw [List.card_toFinset]
    constructor
    · intro heq
      have hsub := List.dedup_sublist
        (allAdmittedIds (outcomesRun supply dl 0 roster))
      have hde := hsub.eq_of_length heq
      rw [← hde]
      exact List.nodup_dedup _
    · intro hnd
      rw [List.dedup_eq_self.mpr hnd]

/-- C6 counterexample: a run with a single successful course (so no student
can appear in more than one course) in which the identifier `100` occurs on
two admitted rows: `unique_students = 1 < 2 = total_students`, refuting the
claimed equality condition. -/
theorem unique_total_counterexample :
    ((compare_grades [pyS "t0", pyS "t1"]
        [(pyS "C1", [[pyS "SID", pyS "Letter Grade"],
          [pyS "100", pyS "A"], [pyS "100", pyS "A"]])]
        [(pyS "C1", ⟨[pyS "ID", pyS "Approved final grade"],
          [[pyS "100", pyS "A"]]⟩)]).1.map (fun o => o.status)) =
      [Status.success] ∧
    (compare_grades [pyS "t0", pyS "t1"]
        [(pyS "C1", [[pyS "SID", pyS "Letter Grade"],
          [pyS "100", pyS "A"], [pyS "100", pyS "A"]])]
        [(pyS "C1", ⟨[pyS "ID", pyS "Approved final grade"],
          [[pyS "100", pyS "A"]]⟩)]).2.1.unique_students = 1 ∧
    (compare_grades [pyS "t0", pyS "t1"]
        [(pyS "C1", [[pyS "SID", pyS "Letter Grade"],
          [pyS "100", pyS "A"], [pyS "100", pyS "A"]])]
        [(pyS "C1", ⟨[pyS "ID", pyS "Approved final grade"],
          [[pyS "100", pyS "A"]]⟩)]).2.1.total_students = 2 := by
  decide

/-! ## Mismatch totals (C8) -/

theorem length_filter_partition (p : α → Bool) (l : List α) :
    l.length = (l.filter (fun a => !p a)).length + l.countP p := by
  induction l with
  | nil => rfl
  | cons a t ih =>
      by_cases h : p a <;>
        · simp [List.filter_cons, List.countP_cons, h, ih]
          omega

theorem processCourse_unmatched (c p : PyStr) (g : List (List PyStr))
    (t : Table) :
    (processCourse c p g t).1.unmatched =
      ((processCourse c p g t).1.data.getD []).filter (fun r => !r.matched) := by
  rcases processCourse_cases c p g t with ⟨_, hd, hu, _, _⟩ |
    ⟨roster, sid, _, _, _, _, _, hd, hu, _, _⟩
  · rw [hd, hu]
    rfl
  · rw [hd, hu]
    rfl

theorem stepOutcome_unmatched (supply : List PyStr)
    (dl : List (PyStr × Table)) (k : Nat) (f : PyStr × List (List PyStr)) :
    (stepOutcome supply dl k f).unmatched =
      ((stepOutcome supply dl k f).data.getD []).filter
        (fun r => !r.matched) := by
  unfold stepOutcome
  cases h : dictLookup dl f.1 with
  | none => rfl
  | some t => exact processCourse_unmatched f.1 (supply.getD k []) f.2 t

theorem stepOutcome_error_unmatched (supply : List PyStr)
    (dl : List (PyStr × Table)) (k : Nat) (f : PyStr × List (List PyStr))
    (h : (stepOutcome supply dl k f).status = .error) :
    (stepOutcome supply dl k f).unmatched = [] := by
  unfold stepOutcome at h ⊢
  cases hd : dictLookup dl f.1 with
  | none => rfl
  | some t =>
      rw [hd] at h
      dsimp only at h
      exact (processCourse_error_fields _ _ _ _ h).2.1

theorem step_tm (supply : List PyStr) (dl : List (PyStr × Table))
    (st : RunState) (f : PyStr × List (List PyStr)) :
    (step supply dl st f).total_mismatches =
      st.total_mismatches + (stepOutcome supply dl st.k f).unmatched.length := by
  unfold step stepOutcome
  cases h : dictLookup dl f.1 with
  | none => rfl
  | some t =>
      dsimp only
      cases hs : (processCourse f.1 (supply.getD st.k []) f.2 t).1.status with
      | error =>
          obtain ⟨_, hu, _, _⟩ :=
            processCourse_error_fields f.1 (supply.getD st.k []) f.2 t hs
          rw [hu]
          rfl
      | success => rfl

theorem run_tm (supply : List PyStr) (dl : List (PyStr × Table))
    (l : List (PyStr × List (List PyStr))) : ∀ st : RunState,
    (List.foldl (step supply dl) st l).total_mismatches =
      st.total_mismatches +
        ((outcomesRun supply dl st.k l).map
          (fun o => o.unmatched.length)).sum := by
  induction l with
  | nil => intro st; simp [outcomesRun]
  | cons f fs ih =>
      intro st
      rw [List.foldl_cons, ih, step_tm, step_k]
      simp [outcomesRun, Nat.add_assoc]

theorem outcomesRun_mem (supply : List PyStr) (dl : List (PyStr × Table))
    (l : List (PyStr × List (List PyStr))) : ∀ k o,
    o ∈ outcomesRun supply dl k l →
    ∃ k' f, o = stepOutcome supply dl k' f := by
  induction l with
  | nil => intro k o h; cases h
  | cons f fs ih =>
      intro k o h
      rcases List.mem_cons.mp h with rfl | h'
      · exact ⟨k, f, rfl⟩
      · exact ih _ o h'

theorem sum_unmatched_filter (outs : List CourseOutcome)
    (h : ∀ o ∈ outs, o.status = .error → o.unmatched = []) :
    ((outs.filter (fun o => decide (o.status = .success))).map
      (fun o => o.unmatched.length)).sum =
    (outs.map (fun o => o.unmatched.length)).sum := by
  induction outs with
  | nil => rfl
  | cons o rest ih =>
      have hrest := fun o' ho' => h o' (List.mem_cons_of_mem _ ho')
      cases ho : o.status with
      | success => simp [List.filter_cons, ho, ih hrest]
      | error =>
          have hoe : o.unmatched = [] := h o (List.mem_cons_self _ _) ho
          simp [List.filter_cons, ho, hoe, ih hrest]

/-- C8: `total_mismatches` is the sum of `len(unmatched)` over the
successful outcomes, and every successful outcome's row count splits into
its unmatched count plus its matched count. -/
theorem mismatch_totals (supply : List PyStr)
    (roster : List (PyStr × List (List PyStr)))
    (dl : List (PyStr × Table)) :
    (compare_grades supply roster dl).2.1.total_mismatches =
      (((compare_grades supply roster dl).1.filter
          (fun o => decide (o.status = .success))).map
        (fun o => o.unmatched.length)).sum ∧
    ∀ o ∈ (compare_grades supply roster dl).1, o.status = .success →
      (o.data.getD []).length = o.unmatched.length +
        (o.data.getD []).countP (fun r => r.matched) := by
  have hids := compare_grades_outcomes supply roster dl
  have herr : ∀ o ∈ (compare_grades supply roster dl).1,
      o.status = .error → o.unmatched = [] := by
    rw [hids]
    intro o ho hst
    obtain ⟨k', f, rfl⟩ := outcomesRun_mem supply dl roster 0 o ho
    exact stepOutcome_error_unmatched _ _ _ _ hst
  constructor
  · rw [sum_unmatched_filter _ herr, hids]
    show (List.foldl (step supply dl) initState roster).total_mismatches = _
    rw [run_tm]
    exact Nat.zero_add _
  · intro o ho hst
    have hu : o.unmatched = (o.data.getD []).filter (fun r => !r.matched) := by
      rw [hids] at ho
      obtain ⟨k', f, rfl⟩ := outcomesRun_mem supply dl roster 0 o ho
      exact stepOutcome_unmatched _ _ _ _
    rw [hu]
    exact length_filter_partition (fun r => r.matched) (o.data.getD [])

/-- C8 witness: a concrete course with one mismatch, partitioned. -/
theorem mismatch_totals_witness :
    (((compare_grades [pyS "t0", pyS "t1"]
        [(pyS "C1", [[pyS "SID", pyS "Letter Grade"],
          [pyS "100", pyS "A"], [pyS "101", pyS "B"]])]
        [(pyS "C1", ⟨[pyS "ID", pyS "Approved final grade"],
          [[pyS "100", pyS "A"], [pyS "101", pyS "C"]]⟩)]).1.getD 0
        (errOutcome [] [])).data.getD []).length =
      ((compare_grades [pyS "t0", pyS "t1"]
        [(pyS "C1", [[pyS "SID", pyS "Letter Grade"],
          [pyS "100", pyS "A"], [pyS "101", pyS "B"]])]
        [(pyS "C1", ⟨[pyS "ID", pyS "Approved final grade"],
          [[pyS "100", pyS "A"], [pyS "101", pyS "C"]]⟩)]).1.getD 0
        (errOutcome [] [])).unmatched.length +
      (((compare_grades [pyS "t0", pyS "t1"]
        [(pyS "C1", [[pyS "SID", pyS "Letter Grade"],
          [pyS "100", pyS "A"], [pyS "101", pyS "B"]])]
        [(pyS "C1", ⟨[pyS "ID", pyS "Approved final grade"],
          [[pyS "100", pyS "A"], [pyS "101", pyS "C"]]⟩)]).1.getD 0
        (errOutcome [] [])).data.getD []).countP (fun r => r.matched) :=
  (mismatch_totals [pyS "t0", pyS "t1"]
    [(pyS "C1", [[pyS "SID", pyS "Letter Grade"],
      [pyS "100", pyS "A"], [pyS "101", pyS "B"]])]
    [(pyS "C1", ⟨[pyS "ID", pyS "Approved final grade"],
      [[pyS "100", pyS "A"], [pyS "101", pyS "C"]]⟩)]).2 _ (by decide)
    (by decide)

theorem step_rel (s1 s2 : List PyStr) (dl : List (PyStr × Table))
    (f : PyStr × List (List PyStr)) (st1 st2 : RunState)
    (h : runRel st1 st2) : runRel (step s1 dl st1 f) (step s2 dl st2 f) := by
  obtain ⟨ho, hau, hu, htc, hcwm, htm, hts, hws, hk⟩ := h
  unfold runRel step
  cases hd : dictLookup dl f.1 with
  | none =>
      dsimp only
      exact ⟨by simp [ho], hau, hu, htc, hcwm, htm, hts, hws, hk⟩
  | some t =>
      dsimp only
      have hpath :=
        processCourse_path f.1 (s1.getD st1.k []) (s2.getD st2.k []) f.2 t
      have hstat : (processCourse f.1 (s1.getD st1.k []) f.2 t).1.status =
          (processCourse f.1 (s2.getD st2.k []) f.2 t).1.status :=
        congrArg (fun x => x.2.1) hpath.1
      have hdata : (processCourse f.1 (s1.getD st1.k []) f.2 t).1.data =
          (processCourse f.1 (s2.getD st2.k []) f.2 t).1.data :=
        congrArg (fun x => x.2.2.1) hpath.1
      have hunm : (processCourse f.1 (s1.getD st1.k []) f.2 t).1.unmatched =
          (processCourse f.1 (s2.getD st2.k []) f.2 t).1.unmatched :=
        congrArg (fun x => x.2.2.2.1) hpath.1
      have hwdn : (processCourse f.1 (s1.getD st1.k []) f.2 t).1.withdrawn =
          (processCourse f.1 (s2.getD st2.k []) f.2 t).1.withdrawn :=
        congrArg (fun x => x.2.2.2.2) hpath.1
      rw [hstat]
      cases hs : (processCourse f.1 (s2.getD st2.k []) f.2 t).1.status with
      | error =>
          refine ⟨?_, hau, hu, by rw [htc], hcwm, htm, hts, hws, by rw [hk]⟩
          simp only [List.map_append, List.map_cons, List.map_nil, ho,
            hpath.1]
      | success =>
          refine ⟨?_, ?_, ?_, ?_, ?_, ?_, ?_, ?_, ?_⟩
          · simp only [List.map_append, List.map_cons, List.map_nil, ho,
              hpath.1]
          · rw [hau, hunm]
          · rw [hu, hpath.2]
          · rw [htc]
          · rw [hcwm, hunm]
          · rw [htm, hunm]
          · rw [hts, hdata]
          · rw [hws, hwdn]
          · rw [hk]

theorem run_rel_foldl (s1 s2 : List PyStr) (dl : List (PyStr × Table))
    (l : List (PyStr × List (List PyStr))) : ∀ st1 st2 : RunState,
    runRel st1 st2 →
    runRel (List.foldl (step s1 dl) st1 l) (List.foldl (step s2 dl) st2 l) := by
  induction l with
  | nil => intro st1 st2 h; exact h
  | cons f fs ih =>
      intro st1 st2 h
      rw [List.foldl_cons, List.foldl_cons]
      exact ih _ _ (step_rel s1 s2 dl f st1 st2 h)

/-- C10 (amended): for equal roster and downloaded collections, every part
of the result other than outcome messages — the summary, the collected
unmatched rows, and each outcome's course, status, data, unmatched and
withdrawn fields — is independent of the OS-chosen temp-file names. -/
theorem deterministic_up_to_tmp (s1 s2 : List PyStr)
    (roster : List (PyStr × List (List PyStr)))
    (dl : List (PyStr × Table)) :
    (compare_grades s1 roster dl).2.1 = (compare_grades s2 roster dl).2.1 ∧
    (compare_grades s1 roster dl).2.2 = (compare_grades s2 roster dl).2.2 ∧
    (compare_grades s1 roster dl).1.map outcomeCore =
      (compare_grades s2 roster dl).1.map outcomeCore := by
  obtain ⟨ho, hau, hu, htc, hcwm, htm, hts, hws, hk⟩ :=
    run_rel_foldl s1 s2 dl roster initState initState
      ⟨rfl, rfl, rfl, rfl, rfl, rfl, rfl, rfl, rfl⟩
  refine ⟨?_, hau, ho⟩
  show Summary.mk _ _ _ _ _ _ = Summary.mk _ _ _ _ _ _
  rw [htc, hcwm, htm, hts, hu, hws]

/-- C10 counterexample: identical roster and downloaded collections, two
runs; the OS hands out different temp-file names, and the header-error
message embeds them, so the full results differ. -/
theorem determinism_counterexample :
    compare_grades [pyS "/tmp/tmpaaaa.xlsx", pyS "/tmp/tmpbbbb.csv"]
        [(pyS "C1", [[pyS "no header"]])]
        [(pyS "C1", ⟨[pyS "ID", pyS "Approved final grade"], []⟩)] ≠
      compare_grades [pyS "/tmp/tmpcccc.xlsx", pyS "/tmp/tmpdddd.csv"]
        [(pyS "C1", [[pyS "no header"]])]
        [(pyS "C1", ⟨[pyS "ID", pyS "Approved final grade"], []⟩)] := by
  decide
